import Mathlib

/-!
Verification of the usage-aggregation and settlement pipeline of the
`pasarguard` panel (module `app/jobs/record_usages.py`).

The Python module is shallowly embedded: every pure computation
(aggregation, parsing, statement building) becomes a Lean function on the
same data; the database is modelled as an explicit table state
(a function from the uniqueness key to the stored value); the retry loop
of `safe_execute` becomes a fuel-indexed recursion over an oracle that
gives the outcome of each attempt; python `dict`s that flow into SQL
parameter binding are modelled as association lists from `String`.
Python numbers are modelled with `Int` (byte counters) and `ℚ`
(usage coefficients); `int(x)` on a rational is truncation toward zero.
-/

/-- Truncation toward zero, the behaviour of Python `int()` on a number:
floor for non-negative values, ceiling for negative ones. -/
def pyInt (q : ℚ) : Int :=
  if 0 ≤ q then ⌊q⌋ else ⌈q⌉

/-- One validated per-user stat entry, the dict `{"uid": ..., "value": ...}`
produced by `get_users_stats` and consumed by the aggregation functions. -/
structure UidValue where
  uid : Int
  value : Int
deriving DecidableEq, Repr

/-- `m[k] += v` on a Python `defaultdict(int)` with `Int` keys, viewed as an
association list in insertion order: bump the first entry with key `k`,
or append `(k, v)` when the key is absent (default value 0). -/
def addUsage : List (Int × Int) → Int → Int → List (Int × Int)
  | [], k, v => [(k, v)]
  | (k', x) :: rest, k, v =>
    if k' = k then (k', x + v) :: rest else (k', x) :: addUsage rest k v

/-- Total value credited to key `u` in an association list (sum over all
entries carrying that key; 0 when absent). -/
def sumVals (m : List (Int × Int)) (u : Int) : Int :=
  ((m.filter fun kv => kv.1 = u).map fun kv => kv.2).sum

/-- Total value credited to uid `u` in a list of `{uid, value}` dicts. -/
def totalOf (l : List UidValue) (u : Int) : Int :=
  ((l.filter fun p => p.uid = u).map fun p => p.value).sum

/-- `usage_coefficient.get(node_id, 1)`: coefficient lookup with default 1. -/
def coeffLookup : List (Int × ℚ) → Int → ℚ
  | [], _ => 1
  | (k, c) :: rest, n => if k = n then c else coeffLookup rest n

/-- Embedding of `calculate_users_usage` (`app/jobs/record_usages.py`):
for each node (in order), add `int(value * coeff)` into a
`defaultdict(int)` keyed by uid, where `coeff` is the node's coefficient
(default 1), then list the accumulated `{uid, value}` pairs. -/
def calculate_users_usage (api_params : List (Int × List UidValue))
    (usage_coefficient : List (Int × ℚ)) : List UidValue :=
  let m := api_params.foldl
    (fun acc np =>
      let coeff := coeffLookup usage_coefficient np.1
      np.2.foldl (fun acc2 p => addUsage acc2 p.uid (pyInt ((p.value : ℚ) * coeff))) acc)
    []
  m.map fun kv => ⟨kv.1, kv.2⟩

/-- The per-uid credit `calculate_users_usage` is specified to produce:
the sum over all nodes of `int(value * coefficient)` of that uid's
entries at that node. -/
def specUserCredit (api_params : List (Int × List UidValue))
    (usage_coefficient : List (Int × ℚ)) (u : Int) : Int :=
  (api_params.map fun np =>
    (((np.2.filter fun p => p.uid = u).map
        fun p => pyInt ((p.value : ℚ) * coeffLookup usage_coefficient np.1)).sum)).sum

/-- Embedding of `calculate_admin_usage` (`app/jobs/record_usages.py`):
the owning admin of each uid is looked up in `user_admin` (the map built
from the batched `SELECT id, admin_id FROM users WHERE id IN ...`; `none`
models a uid with no row).  Mirroring the Python truthiness test
`if admin_id:`, an entry is skipped when the lookup yields `None` or `0`;
otherwise its delta is added into a `defaultdict(int)` keyed by admin id. -/
def calculate_admin_usage (users_usage : List UidValue)
    (user_admin : Int → Option Int) : List (Int × Int) :=
  if users_usage.isEmpty then []
  else
    users_usage.foldl
      (fun acc p =>
        match user_admin p.uid with
        | some a => if a = 0 then acc else addUsage acc a p.value
        | none => acc)
      []

/-- One raw stat entry returned by a node's RPC for `StatType.UsersStat`:
a counter name of the form `"<uid>.<suffix>"` and an integer value. -/
structure RawStat where
  name : String
  value : Int
deriving DecidableEq, Repr

/-- One raw stat entry returned by a node's RPC for `StatType.Outbounds`:
a direction tag (`"uplink"` or anything else) and an integer value. -/
structure OutStat where
  type : String
  value : Int
deriving DecidableEq, Repr

/-- An uplink/downlink contribution dict `{"up": ..., "down": ...}`. -/
structure UpDown where
  up : Int
  down : Int
deriving DecidableEq, Repr

/-- `m[k] += v` on a Python `defaultdict(int)` with `String` keys. -/
def addUsageS : List (String × Int) → String → Int → List (String × Int)
  | [], k, v => [(k, v)]
  | (k', x) :: rest, k, v =>
    if k' = k then (k', x + v) :: rest else (k', x) :: addUsageS rest k v

/-- `name.split(".", 1)[0]`: the segment before the first `'.'`
(the whole string when there is no dot). -/
def takeBeforeDot : List Char → List Char
  | [] => []
  | c :: rest => if c = '.' then [] else c :: takeBeforeDot rest

def uidSegment (s : String) : String :=
  ⟨takeBeforeDot s.data⟩

def digitsToNatAux : List Char → Nat → Option Nat
  | [], acc => some acc
  | c :: rest, acc =>
    if c.isDigit then digitsToNatAux rest (acc * 10 + (c.toNat - 48)) else none

/-- Decimal digit run to a natural number; `none` on empty or non-digit input. -/
def digitsToNat : List Char → Option Nat
  | [] => none
  | l => digitsToNatAux l 0

/-- Python `int(s)` on a string: optional sign followed by decimal digits
(leading zeros accepted, e.g. `int("07") = 7`); `none` models the
`ValueError` raised on anything else.  (Whitespace/underscore forms of
Python integer literals are irrelevant to the counter names and are not
modelled.) -/
def pyParseInt (s : String) : Option Int :=
  match s.data with
  | [] => none
  | c :: rest =>
    if c = '-' then (digitsToNat rest).map fun n => -(n : Int)
    else if c = '+' then (digitsToNat rest).map fun n => (n : Int)
    else (digitsToNat (c :: rest)).map fun n => (n : Int)

/-- The validation pass of `get_users_stats`: keep the groups whose key
parses as an integer uid, in order, dropping the rest (with a warning). -/
def validateUids (params : List (String × Int)) : List UidValue :=
  params.filterMap fun kv => (pyParseInt kv.1).map fun uid => ⟨uid, kv.2⟩

/-- The grouping pass of `get_users_stats`: fold the (already
truthiness-filtered) stats into a `defaultdict(int)` keyed by the raw
string segment before the first `'.'` of the counter name. -/
def groupStats (acc : List (String × Int)) (stats : List RawStat) : List (String × Int) :=
  stats.foldl (fun acc s => addUsageS acc (uidSegment s.name) s.value) acc

/-- Embedding of the parsing core of `get_users_stats`
(`app/jobs/record_usages.py`): drop zero-valued counters
(`filter(attrgetter("value"), ...)`), group and sum by the raw name segment
before the first `'.'`, then keep only groups whose key parses as an
integer uid.  The RPC fetch and the error paths that return `[]` are not
part of this pure core. -/
def get_users_stats (stats : List RawStat) : List UidValue :=
  validateUids (groupStats [] (stats.filter fun s => s.value ≠ 0))

/-- Embedding of the parsing core of `get_outbounds_stats`
(`app/jobs/record_usages.py`): drop zero-valued entries, then classify each
entry as `{"up": value, "down": 0}` when its type string is exactly
`"uplink"` and `{"up": 0, "down": value}` otherwise. -/
def get_outbounds_stats (stats : List OutStat) : List UpDown :=
  (stats.filter fun s => s.value ≠ 0).map
    fun s => if s.type = "uplink" then ⟨s.value, 0⟩ else ⟨0, s.value⟩

/-- The information `safe_execute` inspects on a caught
`OperationalError` / `DatabaseError`: `err.orig.args` (a missing `orig`
or `args` attribute is modelled as `none`), `err.orig.code` (likewise),
and `str(err)`. -/
structure PyDBError where
  origArgs : Option (List Int)
  origCode : Option String
  msg : String
deriving DecidableEq, Repr

/-- `hasattr(err, "orig") and hasattr(err.orig, "args") and
len(err.orig.args) > 0 and err.orig.args[0] == 1213`. -/
def is_mysql_deadlock (e : PyDBError) : Bool :=
  match e.origArgs with
  | some (a :: _) => a == 1213
  | _ => false

/-- `hasattr(err, "orig") and hasattr(err.orig, "code") and
err.orig.code == "40P01"`. -/
def is_pg_deadlock (e : PyDBError) : Bool :=
  e.origCode == some "40P01"

def charsStartWith : List Char → List Char → Bool
  | [], _ => true
  | _ :: _, [] => false
  | p :: ps, c :: cs => p == c && charsStartWith ps cs

def charsContain (pat : List Char) : List Char → Bool
  | [] => charsStartWith pat []
  | c :: cs => charsStartWith pat (c :: cs) || charsContain pat cs

/-- `"database is locked" in str(err)`. -/
def is_sqlite_locked (e : PyDBError) : Bool :=
  charsContain "database is locked".data e.msg.data

/-- An error is transient (retried by `safe_execute`) iff it is classified
as a MySQL deadlock, a PostgreSQL deadlock, or an SQLite lock error. -/
def is_retriable (e : PyDBError) : Bool :=
  is_mysql_deadlock e || is_pg_deadlock e || is_sqlite_locked e

/-- Observable outcome of `safe_execute`: some attempt committed
(`attempts` = number of attempts performed, `sleeps` = the backoff delays
slept, in seconds and in order), or an error was re-raised after
`attempts` attempts, or `max_retries = 0` and the loop body never ran. -/
inductive SEOutcome where
  | committed (attempts : Nat) (sleeps : List ℚ)
  | raised (e : PyDBError) (attempts : Nat) (sleeps : List ℚ)
  | noAttempt
deriving DecidableEq, Repr

/-- The retry loop `for attempt in range(max_retries)` of `safe_execute`
(`app/jobs/record_usages.py`), with `fuel = max_retries - attempt` many
iterations left.  `ex attempt` is the outcome of iteration `attempt`'s body
on its own fresh session (`.ok ()` = executed and committed, `.error e` =
an `OperationalError`/`DatabaseError` raised before the commit took
effect, so a failed attempt commits nothing).  `jitter n` is the value
drawn by `random.uniform(0, base_delay * 0.5)` at iteration `n`.  On the
last iteration (`fuel = 1`, i.e. `attempt = max_retries - 1`) the guard
`attempt < max_retries - 1` fails and any error is re-raised. -/
def safe_execute_loop (ex : Nat → Except PyDBError Unit) (jitter : Nat → ℚ) :
    Nat → Nat → List ℚ → SEOutcome
  | 0, _, _ => .noAttempt
  | 1, attempt, sleeps =>
    match ex attempt with
    | .ok _ => .committed (attempt + 1) sleeps
    | .error e => .raised e (attempt + 1) sleeps
  | fuel + 2, attempt, sleeps =>
    match ex attempt with
    | .ok _ => .committed (attempt + 1) sleeps
    | .error e =>
      if is_mysql_deadlock e || is_pg_deadlock e then
        safe_execute_loop ex jitter (fuel + 1) (attempt + 1)
          (sleeps ++ [(1/20 : ℚ) * 2 ^ attempt + jitter attempt])
      else if is_sqlite_locked e then
        safe_execute_loop ex jitter (fuel + 1) (attempt + 1)
          (sleeps ++ [(1/10 : ℚ) * ((attempt : ℚ) + 1)])
      else .raised e (attempt + 1) sleeps

/-- Embedding of `safe_execute` (`app/jobs/record_usages.py`): run the
retry loop from attempt 0 with no sleeps performed yet. -/
def safe_execute (ex : Nat → Except PyDBError Unit) (jitter : Nat → ℚ)
    (max_retries : Nat) : SEOutcome :=
  safe_execute_loop ex jitter max_retries 0 []

/-- Number of attempts an outcome performed. -/
def attemptsOf : SEOutcome → Nat
  | .committed n _ => n
  | .raised _ n _ => n
  | .noAttempt => 0

/-- Number of commits an outcome performed: an attempt commits exactly when
it succeeds, and `safe_execute` returns right after the first commit, so
failed attempts leave nothing visible. -/
def commitCount : SEOutcome → Nat
  | .committed _ _ => 1
  | .raised _ _ _ => 0
  | .noAttempt => 0

/-- A SQL parameter dict: bind-parameter name ↦ bound integer value
(`created_at` datetimes are modelled as opaque integers). -/
abbrev Dict := List (String × Int)

def dictGet : Dict → String → Option Int
  | [], _ => none
  | (k, v) :: rest, n => if k = n then some v else dictGet rest n

/-- The statement shapes `build_node_user_usage_upsert` can emit:
the native PostgreSQL `INSERT .. ON CONFLICT (created_at, user_id, node_id)
DO UPDATE SET used_traffic = used_traffic + :value`, the native MySQL
`INSERT .. ON DUPLICATE KEY UPDATE used_traffic = used_traffic +
VALUES(used_traffic)`, the SQLite `INSERT OR IGNORE` with
`used_traffic = 0`, and the SQLite
`UPDATE .. SET used_traffic = used_traffic + :value WHERE user_id = :b_uid
AND node_id = :b_node_id AND created_at = :b_created_at`. -/
inductive UUStmt where
  | pgUpsert
  | myUpsert
  | insertIgnore
  | updateAdd
deriving DecidableEq, Repr

/-- The bind-parameter names each NodeUserUsage statement reads. -/
def uuBindNames : UUStmt → List String
  | .pgUpsert => ["uid", "node_id", "created_at", "value"]
  | .myUpsert => ["uid", "node_id", "created_at", "value"]
  | .insertIgnore => ["uid", "node_id", "created_at"]
  | .updateAdd => ["value", "b_uid", "b_node_id", "b_created_at"]

/-- Uniqueness key of NodeUserUsage: (user_id, node_id, created_at). -/
abbrev UUKey := Int × Int × Int

/-- NodeUserUsage table state: key ↦ stored `used_traffic` (none = absent). -/
abbrev UUTable := UUKey → Option Int

/-- Execute one NodeUserUsage statement for one parameter row against a
table state.  Bind values are read from the dict by name; a missing bind
parameter is an execution error (`none`), which is how a binder collision
between the two SQLite statements would surface. -/
def execUURow : UUStmt → UUTable → Dict → Option UUTable
  | .pgUpsert, T, d | .myUpsert, T, d =>
    match dictGet d "uid", dictGet d "node_id", dictGet d "created_at", dictGet d "value" with
    | some u, some n, some c, some v =>
      some fun k =>
        if k = (u, n, c) then
          some (match T (u, n, c) with | some x => x + v | none => v)
        else T k
    | _, _, _, _ => none
  | .insertIgnore, T, d =>
    match dictGet d "uid", dictGet d "node_id", dictGet d "created_at" with
    | some u, some n, some c =>
      some (if (T (u, n, c)).isSome then T
            else fun k => if k = (u, n, c) then some 0 else T k)
    | _, _, _ => none
  | .updateAdd, T, d =>
    match dictGet d "value", dictGet d "b_uid", dictGet d "b_node_id",
        dictGet d "b_created_at" with
    | some v, some u, some n, some c =>
      some fun k => if k = (u, n, c) then (T k).map (· + v) else T k
    | _, _, _, _ => none

/-- Execute one statement over its whole parameter batch, in order. -/
def execUUBatch (s : UUStmt) : UUTable → List Dict → Option UUTable
  | T, [] => some T
  | T, d :: rest =>
    match execUURow s T d with
    | some T2 => execUUBatch s T2 rest
    | none => none

/-- Execute the returned `(statement, parameter-batch)` list, in order. -/
def execUUProgram : UUTable → List (UUStmt × List Dict) → Option UUTable
  | T, [] => some T
  | T, (s, ds) :: rest =>
    match execUUBatch s T ds with
    | some T2 => execUUProgram T2 rest
    | none => none

/-- One upsert parameter row for NodeUserUsage, with the keys documented by
`build_node_user_usage_upsert`: uid, node_id, created_at, value. -/
structure UUParam where
  uid : Int
  node_id : Int
  created_at : Int
  value : Int
deriving DecidableEq, Repr

/-- The parameter dict of an `upsert_params` row. -/
def uuDict (p : UUParam) : Dict :=
  [("uid", p.uid), ("value", p.value), ("node_id", p.node_id), ("created_at", p.created_at)]

/-- The remapped dict built for the SQLite update statement
(`{"value": p["value"], "b_uid": p["uid"], "b_node_id": p["node_id"],
"b_created_at": p["created_at"]}`). -/
def uuUpdateDict (p : UUParam) : Dict :=
  [("value", p.value), ("b_uid", p.uid), ("b_node_id", p.node_id),
   ("b_created_at", p.created_at)]

/-- Embedding of `build_node_user_usage_upsert` (`app/jobs/record_usages.py`):
one native upsert statement for PostgreSQL or MySQL, and for any other
dialect (SQLite) the `INSERT OR IGNORE` followed by the additive `UPDATE`
with remapped bind names. -/
def build_node_user_usage_upsert (dialect : String) (upsert_params : List UUParam) :
    List (UUStmt × List Dict) :=
  if dialect = "postgresql" then [(.pgUpsert, upsert_params.map uuDict)]
  else if dialect = "mysql" then [(.myUpsert, upsert_params.map uuDict)]
  else
    [(.insertIgnore, upsert_params.map uuDict),
     (.updateAdd, upsert_params.map uuUpdateDict)]

/-- Modelled from the spec: the reference upsert-add semantics — "if the
keyed row exists, add delta to its existing value; else create the row with
value = delta" — used as the comparison point of the refinement claim. -/
def upsertAddSpec (T : UUTable) (p : UUParam) : UUTable :=
  fun k =>
    if k = (p.uid, p.node_id, p.created_at) then
      some (match T (p.uid, p.node_id, p.created_at) with
        | some x => x + p.value
        | none => p.value)
    else T k

/-- Effect of the SQLite `INSERT OR IGNORE` row on the table state. -/
def uuInsIg (T : UUTable) (p : UUParam) : UUTable :=
  if (T (p.uid, p.node_id, p.created_at)).isSome then T
  else fun k => if k = (p.uid, p.node_id, p.created_at) then some 0 else T k

/-- Effect of the SQLite additive `UPDATE` row on the table state
(matches zero rows when the key is absent). -/
def uuUpdAdd (T : UUTable) (p : UUParam) : UUTable :=
  fun k =>
    if k = (p.uid, p.node_id, p.created_at) then (T k).map (· + p.value) else T k

/-- The statement shapes `build_node_usage_upsert` can emit, the NodeUsage
(two additive columns: uplink/downlink) analogues of `UUStmt`. -/
inductive NUStmt where
  | pgUpsert
  | myUpsert
  | insertIgnore
  | updateAdd
deriving DecidableEq, Repr

/-- The bind-parameter names each NodeUsage statement reads. -/
def nuBindNames : NUStmt → List String
  | .pgUpsert => ["node_id", "created_at", "up", "down"]
  | .myUpsert => ["node_id", "created_at", "up", "down"]
  | .insertIgnore => ["node_id", "created_at"]
  | .updateAdd => ["up", "down", "b_node_id", "b_created_at"]

/-- Uniqueness key of NodeUsage: (node_id, created_at). -/
abbrev NUKey := Int × Int

/-- NodeUsage table state: key ↦ stored (uplink, downlink). -/
abbrev NUTable := NUKey → Option (Int × Int)

/-- Execute one NodeUsage statement for one parameter row. -/
def execNURow : NUStmt → NUTable → Dict → Option NUTable
  | .pgUpsert, T, d | .myUpsert, T, d =>
    match dictGet d "node_id", dictGet d "created_at", dictGet d "up", dictGet d "down" with
    | some n, some c, some u, some w =>
      some fun k =>
        if k = (n, c) then
          some (match T (n, c) with | some x => (x.1 + u, x.2 + w) | none => (u, w))
        else T k
    | _, _, _, _ => none
  | .insertIgnore, T, d =>
    match dictGet d "node_id", dictGet d "created_at" with
    | some n, some c =>
      some (if (T (n, c)).isSome then T
            else fun k => if k = (n, c) then some (0, 0) else T k)
    | _, _ => none
  | .updateAdd, T, d =>
    match dictGet d "up", dictGet d "down", dictGet d "b_node_id",
        dictGet d "b_created_at" with
    | some u, some w, some n, some c =>
      some fun k => if k = (n, c) then (T k).map (fun x => (x.1 + u, x.2 + w)) else T k
    | _, _, _, _ => none

def execNUBatch (s : NUStmt) : NUTable → List Dict → Option NUTable
  | T, [] => some T
  | T, d :: rest =>
    match execNURow s T d with
    | some T2 => execNUBatch s T2 rest
    | none => none

def execNUProgram : NUTable → List (NUStmt × List Dict) → Option NUTable
  | T, [] => some T
  | T, (s, ds) :: rest =>
    match execNUBatch s T ds with
    | some T2 => execNUProgram T2 rest
    | none => none

/-- The single upsert parameter of NodeUsage, with the keys documented by
`build_node_usage_upsert`: node_id, created_at, up, down. -/
structure NUParam where
  node_id : Int
  created_at : Int
  up : Int
  down : Int
deriving DecidableEq, Repr

def nuDict (p : NUParam) : Dict :=
  [("node_id", p.node_id), ("created_at", p.created_at), ("up", p.up), ("down", p.down)]

/-- The remapped dict built for the SQLite update statement. -/
def nuUpdateDict (p : NUParam) : Dict :=
  [("up", p.up), ("down", p.down), ("b_node_id", p.node_id),
   ("b_created_at", p.created_at)]

/-- Embedding of `build_node_usage_upsert` (`app/jobs/record_usages.py`):
like `build_node_user_usage_upsert` but for the NodeUsage table and a
single parameter row (passed as a singleton batch). -/
def build_node_usage_upsert (dialect : String) (upsert_param : NUParam) :
    List (NUStmt × List Dict) :=
  if dialect = "postgresql" then [(.pgUpsert, [nuDict upsert_param])]
  else if dialect = "mysql" then [(.myUpsert, [nuDict upsert_param])]
  else
    [(.insertIgnore, [nuDict upsert_param]),
     (.updateAdd, [nuUpdateDict upsert_param])]

/-- Modelled from the spec: reference upsert-add semantics for NodeUsage
(add both deltas to an existing row, else create the row with the deltas). -/
def nuUpsertAddSpec (T : NUTable) (p : NUParam) : NUTable :=
  fun k =>
    if k = (p.node_id, p.created_at) then
      some (match T (p.node_id, p.created_at) with
        | some x => (x.1 + p.up, x.2 + p.down)
        | none => (p.up, p.down))
    else T k

/-- Effect of the SQLite NodeUsage `INSERT OR IGNORE` row (uplink = 0,
downlink = 0 when the key is absent). -/
def nuInsIg (T : NUTable) (p : NUParam) : NUTable :=
  if (T (p.node_id, p.created_at)).isSome then T
  else fun k => if k = (p.node_id, p.created_at) then some (0, 0) else T k

/-- Effect of the SQLite NodeUsage additive `UPDATE` row. -/
def nuUpdAdd (T : NUTable) (p : NUParam) : NUTable :=
  fun k =>
    if k = (p.node_id, p.created_at) then
      (T k).map (fun x => (x.1 + p.up, x.2 + p.down))
    else T k

/-- One write operation a settlement cycle performs through `safe_execute`,
in program order: the batched user running-total update, the batched admin
running-total update, a per-node NodeUserUsage fact upsert, the batched
node running-total update, the System running-total update, and a per-node
NodeUsage fact upsert. -/
inductive WriteOp where
  | userTotals (params : List UidValue)
  | adminTotals (params : List (Int × Int))
  | userFacts (node_id : Int) (params : List UidValue)
  | nodeTotals (params : List (Int × Int × Int))
  | systemTotals (up down : Int)
  | nodeFacts (node_id : Int) (up down : Int)
deriving DecidableEq, Repr

def isUserTotals : WriteOp → Bool
  | .userTotals _ => true
  | _ => false

def isAdminTotals : WriteOp → Bool
  | .adminTotals _ => true
  | _ => false

def isUserFacts : WriteOp → Bool
  | .userFacts _ _ => true
  | _ => false

/-- Embedding of `record_user_stats` (`app/jobs/record_usages.py`) as the
write it performs: nothing when the node's param list is empty, otherwise
the NodeUserUsage fact upsert with values scaled by
`int(value * usage_coefficient)`. -/
def record_user_stats (params : List UidValue) (node_id : Int)
    (usage_coefficient : ℚ) : Option WriteOp :=
  if params.isEmpty then none
  else some (.userFacts node_id
    (params.map fun p => ⟨p.uid, pyInt ((p.value : ℚ) * usage_coefficient)⟩))

/-- Embedding of `record_node_stats` (`app/jobs/record_usages.py`) as the
write it performs: nothing when the param list is empty, otherwise the
NodeUsage fact upsert with the summed uplink and downlink. -/
def record_node_stats (params : List UpDown) (node_id : Int) : Option WriteOp :=
  if params.isEmpty then none
  else some (.nodeFacts node_id
    ((params.map fun p => p.up).sum) ((params.map fun p => p.down).sum))

/-- Embedding of the write sequence of `record_user_usages`
(`app/jobs/record_usages.py`), given the collected per-node stats, the
coefficient map, the user→admin ownership map, and the
`DISABLE_RECORDING_NODE_USAGE` flag: return with no writes when the
aggregated user-delta list is empty; otherwise update user totals, then
admin totals (skipped when the admin rollup is empty), then — unless
recording is disabled — persist the per-node facts. -/
def record_user_usages (api_params : List (Int × List UidValue))
    (usage_coefficient : List (Int × ℚ)) (user_admin : Int → Option Int)
    (disable_recording : Bool) : List WriteOp :=
  let users_usage := calculate_users_usage api_params usage_coefficient
  if users_usage.isEmpty then []
  else
    let user_writes := [WriteOp.userTotals users_usage]
    let admin_usage := calculate_admin_usage users_usage user_admin
    let admin_writes :=
      if admin_usage.isEmpty then [] else [WriteOp.adminTotals admin_usage]
    if disable_recording then user_writes ++ admin_writes
    else
      user_writes ++ admin_writes
        ++ api_params.filterMap fun np =>
            record_user_stats np.2 np.1 (coeffLookup usage_coefficient np.1)

/-- The per-node `(node_id, up, down)` totals `record_node_usages` computes
from the collected outbound stats. -/
def node_totals (api_params : List (Int × List UpDown)) : List (Int × Int × Int) :=
  api_params.map fun np =>
    (np.1, (np.2.map fun p => p.up).sum, (np.2.map fun p => p.down).sum)

/-- Embedding of the write sequence of `record_node_usages`
(`app/jobs/record_usages.py`): return with no writes when the system-wide
uplink and downlink totals are both zero (`if not (total_up or
total_down)`); otherwise update the node totals (restricted to nodes with a
nonzero delta and skipped if none remain), then the System totals, then —
unless recording is disabled — persist the per-node facts. -/
def record_node_usages (api_params : List (Int × List UpDown))
    (disable_recording : Bool) : List WriteOp :=
  let totals := node_totals api_params
  let total_up := (totals.map fun t => t.2.1).sum
  let total_down := (totals.map fun t => t.2.2).sum
  if total_up = 0 ∧ total_down = 0 then []
  else
    let node_update_params := totals.filter fun t => t.2.1 ≠ 0 ∨ t.2.2 ≠ 0
    (if node_update_params.isEmpty then [] else [WriteOp.nodeTotals node_update_params])
      ++ [WriteOp.systemTotals total_up total_down]
      ++ (if disable_recording then []
          else api_params.filterMap fun np => record_node_stats np.2 np.1)

theorem sumVals_nil (u : Int) : sumVals [] u = 0 := rfl

theorem sumVals_addUsage (m : List (Int × Int)) (k v u : Int) :
    sumVals (addUsage m k v) u = sumVals m u + (if k = u then v else 0) := by
  induction m with
  | nil =>
    by_cases h : k = u <;> simp [addUsage, sumVals, List.filter, h]
  | cons kv rest ih =>
    obtain ⟨k', x⟩ := kv
    by_cases hk : k' = k
    · subst hk
      by_cases hu : k' = u
      · subst hu
        simp [addUsage, sumVals, List.filter]
        ring
      · simp [addUsage, sumVals, List.filter, hu]
    · by_cases hu : k' = u
      · subst hu
        simp only [addUsage, if_neg hk]
        simp only [sumVals, List.filter]
        simp only [decide_eq_true_eq, if_pos rfl, decide_True, List.map_cons, List.sum_cons]
        have := ih
        simp only [sumVals] at this
        omega
      · simp only [addUsage, if_neg hk]
        simp only [sumVals, List.filter] at *
        simp only [decide_eq_false hu, Bool.false_eq_true]
        exact ih

/-- Accumulator form: folding one node's entries. -/
theorem fold_node_sumVals (ps : List UidValue) (coeff : ℚ) (acc : List (Int × Int)) (u : Int) :
    sumVals (ps.foldl (fun acc2 p => addUsage acc2 p.uid (pyInt ((p.value : ℚ) * coeff))) acc) u
      = sumVals acc u
        + ((ps.filter fun p => p.uid = u).map fun p => pyInt ((p.value : ℚ) * coeff)).sum := by
  induction ps generalizing acc with
  | nil => simp
  | cons p rest ih =>
    simp only [List.foldl_cons, ih, sumVals_addUsage]
    by_cases h : p.uid = u
    · simp [List.filter, h]; ring
    · simp [List.filter, h]

theorem fold_api_sumVals (api : List (Int × List UidValue)) (coeffs : List (Int × ℚ))
    (acc : List (Int × Int)) (u : Int) :
    sumVals (api.foldl
      (fun acc np =>
        np.2.foldl
          (fun acc2 p => addUsage acc2 p.uid (pyInt ((p.value : ℚ) * coeffLookup coeffs np.1)))
          acc) acc) u
      = sumVals acc u + specUserCredit api coeffs u := by
  induction api generalizing acc with
  | nil => simp [specUserCredit]
  | cons np rest ih =>
    simp only [List.foldl_cons, ih, fold_node_sumVals, specUserCredit, List.map_cons,
      List.sum_cons]
    ring

theorem totalOf_map_mk (m : List (Int × Int)) (u : Int) :
    totalOf (m.map fun kv => (⟨kv.1, kv.2⟩ : UidValue)) u = sumVals m u := by
  induction m with
  | nil => rfl
  | cons kv rest ih =>
    by_cases h : kv.1 = u <;>
      simp [totalOf, sumVals, List.filter, h] at * <;>
      omega

/-- C1: the user-usage aggregation credits each uid the sum over all nodes of
`int(value * coefficient)`, with coefficient defaulting to 1 for nodes absent
from the coefficient map; on the spec's two-node example the deltas are
uid 1 ↦ 275 and uid 2 ↦ 100. -/
theorem calculate_users_usage_credits :
    (∀ (api : List (Int × List UidValue)) (coeffs : List (Int × ℚ)) (u : Int),
        totalOf (calculate_users_usage api coeffs) u = specUserCredit api coeffs u)
    ∧ totalOf (calculate_users_usage
          [(1, [⟨1, 100⟩, ⟨2, 50⟩]), (2, [⟨1, 75⟩])] [(1, 2), (2, 1)]) 1 = 275
    ∧ totalOf (calculate_users_usage
          [(1, [⟨1, 100⟩, ⟨2, 50⟩]), (2, [⟨1, 75⟩])] [(1, 2), (2, 1)]) 2 = 100 := by
  refine ⟨fun api coeffs u => ?_,
    by norm_num [calculate_users_usage, totalOf, addUsage, coeffLookup, pyInt, List.filter],
    by norm_num [calculate_users_usage, totalOf, addUsage, coeffLookup, pyInt, List.filter]⟩
  unfold calculate_users_usage
  rw [totalOf_map_mk]
  simpa [sumVals] using fold_api_sumVals api coeffs [] u

theorem admin_fold_sumVals (uu : List UidValue) (f : Int → Option Int) (a : Int)
    (ha : a ≠ 0) (acc : List (Int × Int)) :
    sumVals (uu.foldl
      (fun acc p =>
        match f p.uid with
        | some b => if b = 0 then acc else addUsage acc b p.value
        | none => acc) acc) a
      = sumVals acc a + ((uu.filter fun p => f p.uid = some a).map fun p => p.value).sum := by
  induction uu generalizing acc with
  | nil => simp
  | cons p rest ih =>
    rw [List.foldl_cons, List.filter_cons]
    cases hf : f p.uid with
    | none =>
      dsimp only
      rw [ih]
      simp
    | some b =>
      dsimp only
      by_cases hb : b = 0
      · subst hb
        rw [if_pos rfl, ih]
        have hne : ¬ ((some (0 : Int)) = some a) := by simpa using fun h => ha h.symm
        simp [hne]
      · rw [if_neg hb, ih, sumVals_addUsage]
        by_cases hba : b = a
        · subst hba
          simp
          ring
        · have hne : ¬ ((some b) = some a) := by simpa using hba
          simp [hne, hba]

/-- C2 (amended): for every nonzero admin id `a`, the admin rollup credits `a`
exactly the sum of the deltas of the users whose ownership lookup yields `a`;
users whose lookup yields no admin — or the Python-falsy admin id 0 — are
skipped. -/
theorem calculate_admin_usage_rollup (uu : List UidValue) (f : Int → Option Int)
    (a : Int) (ha : a ≠ 0) :
    sumVals (calculate_admin_usage uu f) a
      = ((uu.filter fun p => f p.uid = some a).map fun p => p.value).sum := by
  unfold calculate_admin_usage
  by_cases h : uu.isEmpty
  · rw [if_pos h]
    cases uu with
    | nil => simp [sumVals_nil]
    | cons p rest => simp [List.isEmpty] at h
  · rw [if_neg h]
    rw [admin_fold_sumVals uu f a ha [], sumVals_nil, zero_add]

theorem calculate_admin_usage_rollup_witness :
    sumVals (calculate_admin_usage [⟨1, 275⟩, ⟨2, 100⟩] (fun _ => some 99)) 99 = 375 :=
  (calculate_admin_usage_rollup [⟨1, 275⟩, ⟨2, 100⟩] (fun _ => some 99) 99
    (by decide)).trans (by decide)

/-- C2 counterexample: under the ownership map sending every user to admin 0,
user 1 carries delta 5, so the claim as stated would credit admin 0 with 5;
the code's truthiness test `if admin_id:` skips admin id 0, crediting it 0. -/
theorem calculate_admin_usage_claim_cex :
    sumVals (calculate_admin_usage [⟨1, 5⟩] (fun _ => some 0)) 0
      ≠ ((([⟨1, 5⟩] : List UidValue).filter
            fun p => (fun _ => (some 0 : Option Int)) p.uid = some 0).map
          fun p => p.value).sum := by
  decide

theorem groupStats_nil (acc : List (String × Int)) : groupStats acc [] = acc := rfl

theorem groupStats_cons (acc : List (String × Int)) (s : RawStat) (rest : List RawStat) :
    groupStats acc (s :: rest) = groupStats (addUsageS acc (uidSegment s.name) s.value) rest :=
  rfl

theorem validateUids_filter_isSome (l : List (String × Int)) :
    validateUids (l.filter fun kv => (pyParseInt kv.1).isSome) = validateUids l := by
  induction l with
  | nil => rfl
  | cons kv rest ih =>
    cases h : pyParseInt kv.1 with
    | none => simp [validateUids, List.filter_cons, List.filterMap_cons, h] at *; exact ih
    | some u => simp [validateUids, List.filter_cons, List.filterMap_cons, h] at *; exact ih

theorem filter_addUsageS_isSome (m : List (String × Int)) (k : String) (v : Int)
    (hk : (pyParseInt k).isSome) :
    (addUsageS m k v).filter (fun kv => (pyParseInt kv.1).isSome)
      = addUsageS (m.filter fun kv => (pyParseInt kv.1).isSome) k v := by
  induction m with
  | nil => simp [addUsageS, List.filter_cons, hk]
  | cons kv rest ih =>
    obtain ⟨k', x⟩ := kv
    by_cases he : k' = k
    · subst he
      simp [addUsageS, List.filter_cons, hk]
    · by_cases hp : (pyParseInt k').isSome
      · simp [addUsageS, he, List.filter_cons, hp, ih]
      · simp [addUsageS, he, List.filter_cons, hp, ih]

theorem filter_addUsageS_none (m : List (String × Int)) (k : String) (v : Int)
    (hk : ¬ (pyParseInt k).isSome) :
    (addUsageS m k v).filter (fun kv => (pyParseInt kv.1).isSome)
      = m.filter fun kv => (pyParseInt kv.1).isSome := by
  induction m with
  | nil => simp [addUsageS, List.filter_cons, hk]
  | cons kv rest ih =>
    obtain ⟨k', x⟩ := kv
    by_cases he : k' = k
    · subst he
      simp [addUsageS, List.filter_cons, hk]
    · by_cases hp : (pyParseInt k').isSome
      · simp [addUsageS, he, List.filter_cons, hp, ih]
      · simp [addUsageS, he, List.filter_cons, hp, ih]

theorem groupStats_filter_isSome (stats : List RawStat) (acc : List (String × Int)) :
    groupStats (acc.filter fun kv => (pyParseInt kv.1).isSome)
        (stats.filter fun s => (pyParseInt (uidSegment s.name)).isSome)
      = (groupStats acc stats).filter fun kv => (pyParseInt kv.1).isSome := by
  induction stats generalizing acc with
  | nil => rfl
  | cons s rest ih =>
    rw [List.filter_cons, groupStats_cons]
    by_cases hs : (pyParseInt (uidSegment s.name)).isSome
    · rw [if_pos (by simpa using hs), groupStats_cons,
        ← filter_addUsageS_isSome acc (uidSegment s.name) s.value hs, ih]
    · rw [if_neg (by simpa using hs), ← ih (addUsageS acc (uidSegment s.name) s.value),
        filter_addUsageS_none acc (uidSegment s.name) s.value hs]

/-- C8: entries whose uid segment does not parse as an integer are dropped
without affecting the aggregation of the remaining valid entries (filtering
them out of the input leaves the output unchanged), and on a mixed batch the
valid entries are still summed and returned. -/
theorem get_users_stats_drops_malformed :
    (∀ stats : List RawStat,
        get_users_stats stats
          = get_users_stats (stats.filter fun s => (pyParseInt (uidSegment s.name)).isSome))
    ∧ get_users_stats [⟨"3.x", 10⟩, ⟨"abc.y", 7⟩, ⟨"3.z", 5⟩] = [⟨3, 15⟩] := by
  constructor
  · intro stats
    unfold get_users_stats
    have hswap :
        ((stats.filter fun s => (pyParseInt (uidSegment s.name)).isSome).filter
            fun s => s.value ≠ 0)
          = ((stats.filter fun s => s.value ≠ 0).filter
              fun s => (pyParseInt (uidSegment s.name)).isSome) := by
      simp [List.filter_filter, Bool.and_comm]
    calc validateUids (groupStats [] (stats.filter fun s => s.value ≠ 0))
        = validateUids ((groupStats [] (stats.filter fun s => s.value ≠ 0)).filter
            fun kv => (pyParseInt kv.1).isSome) :=
          (validateUids_filter_isSome _).symm
      _ = validateUids (groupStats [] ((stats.filter fun s => s.value ≠ 0).filter
            fun s => (pyParseInt (uidSegment s.name)).isSome)) := by
          rw [← groupStats_filter_isSome]
          rfl
      _ = validateUids (groupStats []
            ((stats.filter fun s => (pyParseInt (uidSegment s.name)).isSome).filter
              fun s => s.value ≠ 0)) := by
          rw [hswap]
  · decide

/-- C9: grouping happens on the raw string segment before integer validation,
so `"7.a"` and `"07.b"` form two distinct groups that both validate to uid 7;
the output can hence carry several entries for one uid. -/
theorem get_users_stats_groups_by_raw_segment :
    get_users_stats [⟨"7.a", 3⟩, ⟨"07.b", 5⟩] = [⟨7, 3⟩, ⟨7, 5⟩]
    ∧ ((get_users_stats [⟨"7.a", 3⟩, ⟨"07.b", 5⟩]).filter fun p => p.uid = 7).length = 2 := by
  decide

theorem get_outbounds_up_sum (stats : List OutStat) :
    ((get_outbounds_stats stats).map fun p => p.up).sum
      = (stats.map fun s => if s.value ≠ 0 ∧ s.type = "uplink" then s.value else 0).sum := by
  induction stats with
  | nil => rfl
  | cons s rest ih =>
    by_cases hv : s.value = 0
    · simp [get_outbounds_stats, List.filter_cons, hv] at *
      exact ih
    · by_cases ht : s.type = "uplink"
      · simp [get_outbounds_stats, List.filter_cons, hv, ht] at *
        omega
      · simp [get_outbounds_stats, List.filter_cons, hv, ht] at *
        exact ih

theorem get_outbounds_down_sum (stats : List OutStat) :
    ((get_outbounds_stats stats).map fun p => p.down).sum
      = (stats.map fun s => if s.value ≠ 0 ∧ s.type ≠ "uplink" then s.value else 0).sum := by
  induction stats with
  | nil => rfl
  | cons s rest ih =>
    by_cases hv : s.value = 0
    · simp [get_outbounds_stats, List.filter_cons, hv] at *
      exact ih
    · by_cases ht : s.type = "uplink"
      · simp [get_outbounds_stats, List.filter_cons, hv, ht] at *
        exact ih
      · simp [get_outbounds_stats, List.filter_cons, hv, ht] at *
        omega

/-- C10: zero-valued outbound entries are dropped and contribute to neither
direction; every remaining entry whose type string is not exactly `"uplink"`
— including unknown type strings — is counted as a downlink contribution
`(up = 0, down = value)`, and only exact `"uplink"` entries count as uplink. -/
theorem get_outbounds_stats_classification :
    (∀ stats : List OutStat,
        get_outbounds_stats stats = get_outbounds_stats (stats.filter fun s => s.value ≠ 0))
    ∧ (∀ stats : List OutStat,
        ((get_outbounds_stats stats).map fun p => p.up).sum
          = (stats.map fun s => if s.value ≠ 0 ∧ s.type = "uplink" then s.value else 0).sum)
    ∧ (∀ stats : List OutStat,
        ((get_outbounds_stats stats).map fun p => p.down).sum
          = (stats.map fun s => if s.value ≠ 0 ∧ s.type ≠ "uplink" then s.value else 0).sum)
    ∧ get_outbounds_stats [⟨"weird", 5⟩, ⟨"uplink", 3⟩, ⟨"downlink", 0⟩]
        = [⟨0, 5⟩, ⟨3, 0⟩] := by
  refine ⟨fun stats => ?_, get_outbounds_up_sum, get_outbounds_down_sum, by decide⟩
  simp [get_outbounds_stats, List.filter_filter]

theorem safe_execute_loop_deadlock (e : PyDBError) (jitter : Nat → ℚ)
    (hd : (is_mysql_deadlock e || is_pg_deadlock e) = true) :
    ∀ (n attempt : Nat) (sleeps : List ℚ),
      safe_execute_loop (fun _ => .error e) jitter (n + 1) attempt sleeps
        = .raised e (attempt + n + 1)
            (sleeps ++ (List.range' attempt n).map fun k => (1/20 : ℚ) * 2 ^ k + jitter k) := by
  intro n
  induction n with
  | zero => intro attempt sleeps; simp [safe_execute_loop]
  | succ m ih =>
    intro attempt sleeps
    show safe_execute_loop (fun _ => .error e) jitter (m + 2) attempt sleeps = _
    rw [safe_execute_loop]
    simp only [hd, if_true]
    rw [ih (attempt + 1) (sleeps ++ [(1/20 : ℚ) * 2 ^ attempt + jitter attempt])]
    rw [List.range'_succ attempt m 1, List.map_cons]
    simp [List.append_assoc]
    omega

theorem safe_execute_loop_sqlite (e : PyDBError) (jitter : Nat → ℚ)
    (hs : is_sqlite_locked e = true)
    (hm : is_mysql_deadlock e = false) (hp : is_pg_deadlock e = false) :
    ∀ (n attempt : Nat) (sleeps : List ℚ),
      safe_execute_loop (fun _ => .error e) jitter (n + 1) attempt sleeps
        = .raised e (attempt + n + 1)
            (sleeps ++ (List.range' attempt n).map fun k : Nat => (1/10 : ℚ) * ((k : ℚ) + 1)) := by
  intro n
  induction n with
  | zero => intro attempt sleeps; simp [safe_execute_loop]
  | succ m ih =>
    intro attempt sleeps
    show safe_execute_loop (fun _ => .error e) jitter (m + 2) attempt sleeps = _
    rw [safe_execute_loop]
    simp only [hm, hp, hs, Bool.or_self, if_false, if_true]
    rw [ih (attempt + 1) (sleeps ++ [(1/10 : ℚ) * ((attempt : ℚ) + 1)])]
    rw [List.range'_succ attempt m 1, List.map_cons]
    simp [List.append_assoc]
    omega

theorem safe_execute_loop_attempts (ex : Nat → Except PyDBError Unit) (jitter : Nat → ℚ) :
    ∀ (fuel attempt : Nat) (sleeps : List ℚ),
      attemptsOf (safe_execute_loop ex jitter fuel attempt sleeps) ≤ attempt + fuel := by
  intro fuel
  induction fuel using Nat.twoStepInduction with
  | zero => intro attempt sleeps; simp [safe_execute_loop, attemptsOf]
  | one =>
    intro attempt sleeps
    rw [safe_execute_loop]
    cases ex attempt <;> simp [attemptsOf]
  | more m ihm ih1 =>
    intro attempt sleeps
    rw [safe_execute_loop]
    cases ex attempt with
    | ok _ => simp only [attemptsOf]; omega
    | error e =>
      dsimp only
      by_cases h1 : (is_mysql_deadlock e || is_pg_deadlock e) = true
      · rw [if_pos h1]
        calc attemptsOf _ ≤ (attempt + 1) + (m + 1) := ih1 (attempt + 1) _
          _ = attempt + (m + 2) := by omega
      · rw [if_neg h1]
        by_cases h2 : is_sqlite_locked e = true
        · rw [if_pos h2]
          calc attemptsOf _ ≤ (attempt + 1) + (m + 1) := ih1 (attempt + 1) _
            _ = attempt + (m + 2) := by omega
        · rw [if_neg h2]
          simp only [attemptsOf]
          omega

theorem safe_execute_nonretriable (ex : Nat → Except PyDBError Unit) (jitter : Nat → ℚ)
    (max_retries : Nat) (e : PyDBError) (h1 : 1 ≤ max_retries)
    (hex : ex 0 = Except.error e) (hnr : is_retriable e = false) :
    safe_execute ex jitter max_retries = .raised e 1 [] := by
  obtain ⟨⟨hm, hp⟩, hs⟩ : (is_mysql_deadlock e = false ∧ is_pg_deadlock e = false)
      ∧ is_sqlite_locked e = false := by
    simpa [is_retriable] using hnr
  cases max_retries with
  | zero => omega
  | succ n =>
    cases n with
    | zero =>
      show safe_execute_loop ex jitter 1 0 [] = _
      rw [safe_execute_loop, hex]
    | succ m =>
      show safe_execute_loop ex jitter (m + 2) 0 [] = _
      rw [safe_execute_loop, hex]
      dsimp only
      rw [if_neg (by simp [hm, hp]), if_neg (by simp [hs])]

/-- C3: the resilient executor retries only errors classified as transient:
a non-transient database error on the first attempt is re-raised with one
attempt performed and no backoff sleeps; the number of attempts never
exceeds `max_retries`; a MySQL/PostgreSQL deadlock on every attempt yields
`max_retries` attempts with exponential backoff delays
`0.05 * 2^k + jitter k` (jitter drawn from `[0, 0.5 * base]`, so each delay
lies between the base and 1.5 times the base); an SQLite "database is
locked" error on every attempt yields linear backoff delays
`0.1 * (k + 1)`. -/
theorem safe_execute_retry_classification (jitter : Nat → ℚ) (max_retries : Nat)
    (e : PyDBError) (h1 : 1 ≤ max_retries) :
    (is_retriable e = false → ∀ ex : Nat → Except PyDBError Unit, ex 0 = Except.error e →
        safe_execute ex jitter max_retries = .raised e 1 [])
    ∧ (∀ ex : Nat → Except PyDBError Unit,
        attemptsOf (safe_execute ex jitter max_retries) ≤ max_retries)
    ∧ ((is_mysql_deadlock e || is_pg_deadlock e) = true →
        safe_execute (fun _ => Except.error e) jitter max_retries
          = .raised e max_retries ((List.range (max_retries - 1)).map
              fun k => (1/20 : ℚ) * 2 ^ k + jitter k))
    ∧ (is_sqlite_locked e = true → is_mysql_deadlock e = false → is_pg_deadlock e = false →
        safe_execute (fun _ => Except.error e) jitter max_retries
          = .raised e max_retries ((List.range (max_retries - 1)).map
              fun k : Nat => (1/10 : ℚ) * ((k : ℚ) + 1)))
    ∧ ((∀ n, 0 ≤ jitter n ∧ jitter n ≤ (1/40 : ℚ) * 2 ^ n) →
        ∀ k, (1/20 : ℚ) * 2 ^ k ≤ (1/20 : ℚ) * 2 ^ k + jitter k
          ∧ (1/20 : ℚ) * 2 ^ k + jitter k ≤ (3/2 : ℚ) * ((1/20 : ℚ) * 2 ^ k)) := by
  refine ⟨fun hnr ex hex => safe_execute_nonretriable ex jitter max_retries e h1 hex hnr,
    fun ex => ?_, fun hd => ?_, fun hs hm hp => ?_, fun hj k => ?_⟩
  · have h := safe_execute_loop_attempts ex jitter max_retries 0 []
    simpa [safe_execute] using h
  · obtain ⟨n, rfl⟩ : ∃ n, max_retries = n + 1 := ⟨max_retries - 1, by omega⟩
    have h := safe_execute_loop_deadlock e jitter hd n 0 []
    simpa [safe_execute, List.range_eq_range'] using h
  · obtain ⟨n, rfl⟩ : ∃ n, max_retries = n + 1 := ⟨max_retries - 1, by omega⟩
    have h := safe_execute_loop_sqlite e jitter hs hm hp n 0 []
    simpa [safe_execute, List.range_eq_range'] using h
  · obtain ⟨hj0, hj1⟩ := hj k
    constructor
    · linarith
    · linarith

theorem safe_execute_retry_classification_witness :
    safe_execute (fun _ => Except.error ⟨some [1213], none, "deadlock"⟩) (fun _ => 0) 5
      = SEOutcome.raised ⟨some [1213], none, "deadlock"⟩ 5
          [1/20, 1/10, 1/5, 2/5] := by
  have h := (safe_execute_retry_classification (fun _ => 0) 5
      ⟨some [1213], none, "deadlock"⟩ (by norm_num)).2.2.1 (by decide)
  rw [h]
  norm_num [List.range_succ]

/-- C4: if the first two attempts raise classified deadlock errors and the
third succeeds, `safe_execute` (with the default `max_retries = 5`) returns
success after exactly 3 attempts, having slept the two exponential-backoff
delays, and exactly one commit is performed (failed attempts commit
nothing, so no partial state is left visible). -/
theorem safe_execute_retry_then_succeed (ex : Nat → Except PyDBError Unit) (jitter : Nat → ℚ)
    (e0 e1 : PyDBError)
    (h0 : ex 0 = Except.error e0) (h1 : ex 1 = Except.error e1) (h2 : ex 2 = Except.ok ())
    (hd0 : (is_mysql_deadlock e0 || is_pg_deadlock e0) = true)
    (hd1 : (is_mysql_deadlock e1 || is_pg_deadlock e1) = true) :
    safe_execute ex jitter 5
        = .committed 3 [(1/20 : ℚ) * 2 ^ 0 + jitter 0, (1/20 : ℚ) * 2 ^ 1 + jitter 1]
      ∧ commitCount (safe_execute ex jitter 5) = 1 := by
  have hstep : safe_execute ex jitter 5
      = .committed 3 [(1/20 : ℚ) * 2 ^ 0 + jitter 0, (1/20 : ℚ) * 2 ^ 1 + jitter 1] := by
    show safe_execute_loop ex jitter 5 0 [] = _
    rw [show (5 : Nat) = 3 + 2 from rfl, safe_execute_loop, h0]
    dsimp only
    rw [if_pos hd0]
    rw [show (3 : Nat) + 1 = 2 + 2 from rfl, show (0 : Nat) + 1 = 1 from rfl,
      safe_execute_loop, h1]
    dsimp only
    rw [if_pos hd1]
    rw [show (2 : Nat) + 1 = 1 + 2 from rfl, show (1 : Nat) + 1 = 2 from rfl,
      safe_execute_loop, h2]
    dsimp only
    norm_num
  exact ⟨hstep, by rw [hstep]; rfl⟩

theorem safe_execute_retry_then_succeed_witness :
    safe_execute
        (fun n => if n < 2 then Except.error ⟨some [1213], none, "deadlock"⟩ else Except.ok ())
        (fun _ => 0) 5
      = SEOutcome.committed 3 [1/20, 1/10]
    ∧ commitCount (safe_execute
        (fun n => if n < 2 then Except.error ⟨some [1213], none, "deadlock"⟩ else Except.ok ())
        (fun _ => 0) 5) = 1 := by
  have h := safe_execute_retry_then_succeed
      (fun n => if n < 2 then Except.error ⟨some [1213], none, "deadlock"⟩ else Except.ok ())
      (fun _ => 0) ⟨some [1213], none, "deadlock"⟩ ⟨some [1213], none, "deadlock"⟩
      rfl rfl rfl (by decide) (by decide)
  refine ⟨?_, h.2⟩
  rw [h.1]
  norm_num

theorem execUURow_pg (T : UUTable) (p : UUParam) :
    execUURow .pgUpsert T (uuDict p) = some (upsertAddSpec T p) := rfl

theorem execUURow_my (T : UUTable) (p : UUParam) :
    execUURow .myUpsert T (uuDict p) = some (upsertAddSpec T p) := rfl

theorem execUURow_ins (T : UUTable) (p : UUParam) :
    execUURow .insertIgnore T (uuDict p) = some (uuInsIg T p) := rfl

theorem execUURow_upd (T : UUTable) (p : UUParam) :
    execUURow .updateAdd T (uuUpdateDict p) = some (uuUpdAdd T p) := rfl

theorem execUUBatch_pg (ps : List UUParam) (T : UUTable) :
    execUUBatch .pgUpsert T (ps.map uuDict) = some (ps.foldl upsertAddSpec T) := by
  induction ps generalizing T with
  | nil => rfl
  | cons p rest ih => rw [List.map_cons, execUUBatch, execUURow_pg]; exact ih _

theorem execUUBatch_my (ps : List UUParam) (T : UUTable) :
    execUUBatch .myUpsert T (ps.map uuDict) = some (ps.foldl upsertAddSpec T) := by
  induction ps generalizing T with
  | nil => rfl
  | cons p rest ih => rw [List.map_cons, execUUBatch, execUURow_my]; exact ih _

theorem execUUBatch_ins (ps : List UUParam) (T : UUTable) :
    execUUBatch .insertIgnore T (ps.map uuDict) = some (ps.foldl uuInsIg T) := by
  induction ps generalizing T with
  | nil => rfl
  | cons p rest ih => rw [List.map_cons, execUUBatch, execUURow_ins]; exact ih _

theorem execUUBatch_upd (ps : List UUParam) (T : UUTable) :
    execUUBatch .updateAdd T (ps.map uuUpdateDict) = some (ps.foldl uuUpdAdd T) := by
  induction ps generalizing T with
  | nil => rfl
  | cons p rest ih => rw [List.map_cons, execUUBatch, execUURow_upd]; exact ih _

theorem uuUpdAdd_isSome (T : UUTable) (p : UUParam) (k : UUKey) :
    ((uuUpdAdd T p) k).isSome = (T k).isSome := by
  unfold uuUpdAdd
  by_cases h : k = (p.uid, p.node_id, p.created_at)
  · rw [if_pos h]; cases T k <;> rfl
  · rw [if_neg h]

theorem uuInsIg_isSome_mono (T : UUTable) (q : UUParam) (k : UUKey)
    (h : (T k).isSome = true) : ((uuInsIg T q) k).isSome = true := by
  unfold uuInsIg
  by_cases hq : (T (q.uid, q.node_id, q.created_at)).isSome
  · rwa [if_pos hq]
  · rw [if_neg hq]
    by_cases hk : k = (q.uid, q.node_id, q.created_at)
    · rw [if_pos hk]; rfl
    · rwa [if_neg hk]

theorem uuInsIg_at_key (T : UUTable) (p : UUParam) :
    ((uuInsIg T p) (p.uid, p.node_id, p.created_at)).isSome = true := by
  unfold uuInsIg
  by_cases hp : (T (p.uid, p.node_id, p.created_at)).isSome
  · rwa [if_pos hp]
  · rw [if_neg hp, if_pos rfl]; rfl

theorem insFold_isSome_mono (ps : List UUParam) (T : UUTable) (k : UUKey)
    (h : (T k).isSome = true) : ((ps.foldl uuInsIg T) k).isSome = true := by
  induction ps generalizing T with
  | nil => exact h
  | cons q rest ih => exact ih _ (uuInsIg_isSome_mono T q k h)

theorem uuUpd_ins_comm (T : UUTable) (p q : UUParam)
    (hp : (T (p.uid, p.node_id, p.created_at)).isSome = true) :
    uuUpdAdd (uuInsIg T q) p = uuInsIg (uuUpdAdd T p) q := by
  by_cases hq : (T (q.uid, q.node_id, q.created_at)).isSome
  · have hq' : ((uuUpdAdd T p) (q.uid, q.node_id, q.created_at)).isSome = true := by
      rw [uuUpdAdd_isSome]; exact hq
    unfold uuInsIg
    rw [if_pos hq, if_pos hq']
  · have hne : (p.uid, p.node_id, p.created_at) ≠ (q.uid, q.node_id, q.created_at) := by
      intro h
      exact hq (h ▸ hp)
    have hq' : ¬ ((uuUpdAdd T p) (q.uid, q.node_id, q.created_at)).isSome = true := by
      rw [uuUpdAdd_isSome]; exact hq
    unfold uuInsIg
    rw [if_neg hq, if_neg hq']
    funext k
    by_cases hkp : k = (p.uid, p.node_id, p.created_at)
    · subst hkp
      rw [uuUpdAdd, if_pos rfl, if_neg hne, uuUpdAdd, if_pos rfl, if_neg hne]
    · by_cases hkq : k = (q.uid, q.node_id, q.created_at)
      · subst hkq
        rw [uuUpdAdd, if_neg hkp, if_pos rfl, if_pos rfl]
      · rw [uuUpdAdd, if_neg hkp, if_neg hkq, if_neg hkq, uuUpdAdd, if_neg hkp]

theorem uuUpd_insFold_comm (ps : List UUParam) (T : UUTable) (p : UUParam)
    (hp : (T (p.uid, p.node_id, p.created_at)).isSome = true) :
    uuUpdAdd (ps.foldl uuInsIg T) p = ps.foldl uuInsIg (uuUpdAdd T p) := by
  induction ps generalizing T with
  | nil => rfl
  | cons q rest ih =>
    rw [List.foldl_cons, List.foldl_cons,
      ih (uuInsIg T q) (uuInsIg_isSome_mono T q _ hp), uuUpd_ins_comm T p q hp]

theorem uuUpd_ins_spec (T : UUTable) (p : UUParam) :
    uuUpdAdd (uuInsIg T p) p = upsertAddSpec T p := by
  funext k
  by_cases hk : k = (p.uid, p.node_id, p.created_at)
  · subst hk
    rw [uuUpdAdd, if_pos rfl, upsertAddSpec, if_pos rfl]
    unfold uuInsIg
    by_cases hp : (T (p.uid, p.node_id, p.created_at)).isSome
    · rw [if_pos hp]
      cases h : T (p.uid, p.node_id, p.created_at) with
      | none => rw [h] at hp; simp at hp
      | some x => rfl
    · rw [if_neg hp]
      cases h : T (p.uid, p.node_id, p.created_at) with
      | none => simp
      | some x => rw [h] at hp; simp at hp
  · rw [uuUpdAdd, if_neg hk, upsertAddSpec, if_neg hk]
    unfold uuInsIg
    by_cases hp : (T (p.uid, p.node_id, p.created_at)).isSome
    · rw [if_pos hp]
    · rw [if_neg hp, if_neg hk]

theorem uu_two_stage (ps : List UUParam) (T : UUTable) :
    ps.foldl uuUpdAdd (ps.foldl uuInsIg T) = ps.foldl upsertAddSpec T := by
  induction ps generalizing T with
  | nil => rfl
  | cons p rest ih =>
    rw [List.foldl_cons, List.foldl_cons, List.foldl_cons,
      uuUpd_insFold_comm rest (uuInsIg T p) p (uuInsIg_at_key T p),
      uuUpd_ins_spec T p, ih]

theorem execNURow_pg (T : NUTable) (p : NUParam) :
    execNURow .pgUpsert T (nuDict p) = some (nuUpsertAddSpec T p) := rfl

theorem execNURow_my (T : NUTable) (p : NUParam) :
    execNURow .myUpsert T (nuDict p) = some (nuUpsertAddSpec T p) := rfl

theorem execNURow_ins (T : NUTable) (p : NUParam) :
    execNURow .insertIgnore T (nuDict p) = some (nuInsIg T p) := rfl

theorem execNURow_upd (T : NUTable) (p : NUParam) :
    execNURow .updateAdd T (nuUpdateDict p) = some (nuUpdAdd T p) := rfl

theorem nuUpd_ins_spec (T : NUTable) (p : NUParam) :
    nuUpdAdd (nuInsIg T p) p = nuUpsertAddSpec T p := by
  funext k
  by_cases hk : k = (p.node_id, p.created_at)
  · subst hk
    rw [nuUpdAdd, if_pos rfl, nuUpsertAddSpec, if_pos rfl]
    unfold nuInsIg
    by_cases hp : (T (p.node_id, p.created_at)).isSome
    · rw [if_pos hp]
      cases h : T (p.node_id, p.created_at) with
      | none => rw [h] at hp; simp at hp
      | some x => rfl
    · rw [if_neg hp]
      cases h : T (p.node_id, p.created_at) with
      | none => simp
      | some x => rw [h] at hp; simp at hp
  · rw [nuUpdAdd, if_neg hk, nuUpsertAddSpec, if_neg hk]
    unfold nuInsIg
    by_cases hp : (T (p.node_id, p.created_at)).isSome
    · rw [if_pos hp]
    · rw [if_neg hp, if_neg hk]

theorem execUUProgram_sqlite (ps : List UUParam) (T : UUTable) :
    execUUProgram T (build_node_user_usage_upsert "sqlite" ps)
      = some (ps.foldl upsertAddSpec T) := by
  show execUUProgram T
      [(UUStmt.insertIgnore, ps.map uuDict), (UUStmt.updateAdd, ps.map uuUpdateDict)] = _
  simp only [execUUProgram, execUUBatch_ins, execUUBatch_upd, uu_two_stage]

theorem execUUProgram_pg (ps : List UUParam) (T : UUTable) :
    execUUProgram T (build_node_user_usage_upsert "postgresql" ps)
      = some (ps.foldl upsertAddSpec T) := by
  show execUUProgram T [(UUStmt.pgUpsert, ps.map uuDict)] = _
  simp only [execUUProgram, execUUBatch_pg]

theorem execUUProgram_my (ps : List UUParam) (T : UUTable) :
    execUUProgram T (build_node_user_usage_upsert "mysql" ps)
      = some (ps.foldl upsertAddSpec T) := by
  show execUUProgram T [(UUStmt.myUpsert, ps.map uuDict)] = _
  simp only [execUUProgram, execUUBatch_my]

theorem execNUProgram_sqlite (p : NUParam) (T : NUTable) :
    execNUProgram T (build_node_usage_upsert "sqlite" p)
      = some (nuUpsertAddSpec T p) := by
  show execNUProgram T
      [(NUStmt.insertIgnore, [nuDict p]), (NUStmt.updateAdd, [nuUpdateDict p])] = _
  simp only [execNUProgram, execNUBatch, execNURow_ins, execNURow_upd, nuUpd_ins_spec]

theorem execNUProgram_pg (p : NUParam) (T : NUTable) :
    execNUProgram T (build_node_usage_upsert "postgresql" p)
      = some (nuUpsertAddSpec T p) := by
  show execNUProgram T [(NUStmt.pgUpsert, [nuDict p])] = _
  simp only [execNUProgram, execNUBatch, execNURow_pg]

theorem execNUProgram_my (p : NUParam) (T : NUTable) :
    execNUProgram T (build_node_usage_upsert "mysql" p)
      = some (nuUpsertAddSpec T p) := by
  show execNUProgram T [(NUStmt.myUpsert, [nuDict p])] = _
  simp only [execNUProgram, execNUBatch, execNURow_my]

/-- C5: for the SQLite dialect both builders return exactly two statements —
first the insert-or-ignore creating the row with the additive column(s) 0,
then the additive update filtered by the exact uniqueness key, whose bind
parameter names are disjoint from the insert's — and executing the two
statements in order on any table state equals the spec's
"add to existing row, else create with value = delta" semantics, which is
also the semantics of the single-statement PostgreSQL and MySQL branches. -/
theorem upsert_builders_sqlite_equivalence :
    (∀ ps : List UUParam,
        (build_node_user_usage_upsert "sqlite" ps).map Prod.fst
          = [UUStmt.insertIgnore, UUStmt.updateAdd])
    ∧ ((uuBindNames UUStmt.insertIgnore).all
        fun s => !((uuBindNames UUStmt.updateAdd).contains s)) = true
    ∧ (∀ (ps : List UUParam) (T : UUTable),
        execUUProgram T (build_node_user_usage_upsert "sqlite" ps)
          = some (ps.foldl upsertAddSpec T))
    ∧ (∀ (ps : List UUParam) (T : UUTable),
        execUUProgram T (build_node_user_usage_upsert "postgresql" ps)
          = some (ps.foldl upsertAddSpec T))
    ∧ (∀ (ps : List UUParam) (T : UUTable),
        execUUProgram T (build_node_user_usage_upsert "mysql" ps)
          = some (ps.foldl upsertAddSpec T))
    ∧ (∀ p : NUParam,
        (build_node_usage_upsert "sqlite" p).map Prod.fst
          = [NUStmt.insertIgnore, NUStmt.updateAdd])
    ∧ ((nuBindNames NUStmt.insertIgnore).all
        fun s => !((nuBindNames NUStmt.updateAdd).contains s)) = true
    ∧ (∀ (p : NUParam) (T : NUTable),
        execNUProgram T (build_node_usage_upsert "sqlite" p)
          = some (nuUpsertAddSpec T p))
    ∧ (∀ (p : NUParam) (T : NUTable),
        execNUProgram T (build_node_usage_upsert "postgresql" p)
          = some (nuUpsertAddSpec T p))
    ∧ (∀ (p : NUParam) (T : NUTable),
        execNUProgram T (build_node_usage_upsert "mysql" p)
          = some (nuUpsertAddSpec T p)) :=
  ⟨fun _ => rfl, by decide, execUUProgram_sqlite, execUUProgram_pg, execUUProgram_my,
   fun _ => rfl, by decide, execNUProgram_sqlite, execNUProgram_pg, execNUProgram_my⟩

theorem get_users_stats_all_zero (stats : List RawStat) (h : ∀ s ∈ stats, s.value = 0) :
    get_users_stats stats = [] := by
  have hf : stats.filter (fun s => s.value ≠ 0) = [] := by
    rw [List.filter_eq_nil_iff]
    intro s hs
    simpa using h s hs
  rw [get_users_stats, hf]
  rfl

theorem get_outbounds_stats_all_zero (stats : List OutStat) (h : ∀ s ∈ stats, s.value = 0) :
    get_outbounds_stats stats = [] := by
  have hf : stats.filter (fun s => s.value ≠ 0) = [] := by
    rw [List.filter_eq_nil_iff]
    intro s hs
    simpa using h s hs
  rw [get_outbounds_stats, hf]
  rfl

theorem calculate_users_usage_all_nil (api : List (Int × List UidValue))
    (coeffs : List (Int × ℚ)) (h : ∀ np ∈ api, np.2 = []) :
    calculate_users_usage api coeffs = [] := by
  have hfold : ∀ (l : List (Int × List UidValue)), (∀ np ∈ l, np.2 = []) →
      ∀ acc : List (Int × Int),
      l.foldl (fun acc np =>
        np.2.foldl
          (fun acc2 p => addUsage acc2 p.uid (pyInt ((p.value : ℚ) * coeffLookup coeffs np.1)))
          acc) acc = acc := by
    intro l
    induction l with
    | nil => intro _ acc; rfl
    | cons np rest ih =>
      intro hl acc
      rw [List.foldl_cons, hl np (List.mem_cons_self np rest)]
      exact ih (fun q hq => hl q (List.mem_cons_of_mem np hq)) acc
  simp only [calculate_users_usage]
  rw [hfold api h]
  rfl

/-- C6: zero-delta cycles perform no writes — the user-usage cycle returns
before any statement when the aggregated user-delta list is empty, the
node-usage cycle returns before any statement when the system-wide uplink
and downlink totals are both zero, and in particular when every node's raw
collected stats are empty or all-zero both cycles emit no write at all. -/
theorem zero_delta_cycles_no_writes
    (api_params : List (Int × List UidValue)) (usage_coefficient : List (Int × ℚ))
    (user_admin : Int → Option Int) (disable_recording : Bool)
    (out_params : List (Int × List UpDown))
    (raw_user : List (Int × List RawStat)) (raw_out : List (Int × List OutStat)) :
    (calculate_users_usage api_params usage_coefficient = [] →
        record_user_usages api_params usage_coefficient user_admin disable_recording = [])
    ∧ (((node_totals out_params).map fun t => t.2.1).sum = 0 →
        ((node_totals out_params).map fun t => t.2.2).sum = 0 →
        record_node_usages out_params disable_recording = [])
    ∧ ((∀ pr ∈ raw_user, ∀ s ∈ pr.2, s.value = 0) →
        record_user_usages (raw_user.map fun pr => (pr.1, get_users_stats pr.2))
          usage_coefficient user_admin disable_recording = [])
    ∧ ((∀ pr ∈ raw_out, ∀ s ∈ pr.2, s.value = 0) →
        record_node_usages (raw_out.map fun pr => (pr.1, get_outbounds_stats pr.2))
          disable_recording = []) := by
  refine ⟨fun h => ?_, fun h1 h2 => ?_, fun h => ?_, fun h => ?_⟩
  · simp [record_user_usages, h]
  · simp only [record_node_usages]
    rw [if_pos ⟨h1, h2⟩]
  · have hnil : calculate_users_usage
        (raw_user.map fun pr => (pr.1, get_users_stats pr.2)) usage_coefficient = [] := by
      apply calculate_users_usage_all_nil
      intro np hnp
      rw [List.mem_map] at hnp
      obtain ⟨pr, hpr, rfl⟩ := hnp
      exact get_users_stats_all_zero pr.2 (h pr hpr)
    simp [record_user_usages, hnil]
  · have hnil : ∀ np ∈ (raw_out.map fun pr => (pr.1, get_outbounds_stats pr.2)),
        np.2 = ([] : List UpDown) := by
      intro np hnp
      rw [List.mem_map] at hnp
      obtain ⟨pr, hpr, rfl⟩ := hnp
      exact get_outbounds_stats_all_zero pr.2 (h pr hpr)
    have h1 : ((node_totals (raw_out.map fun pr => (pr.1, get_outbounds_stats pr.2))).map
        fun t => t.2.1).sum = 0 := by
      apply List.sum_eq_zero
      intro x hx
      rw [List.mem_map] at hx
      obtain ⟨t, ht, rfl⟩ := hx
      rw [node_totals, List.mem_map] at ht
      obtain ⟨np, hnp, rfl⟩ := ht
      rw [hnil np hnp]
      rfl
    have h2 : ((node_totals (raw_out.map fun pr => (pr.1, get_outbounds_stats pr.2))).map
        fun t => t.2.2).sum = 0 := by
      apply List.sum_eq_zero
      intro x hx
      rw [List.mem_map] at hx
      obtain ⟨t, ht, rfl⟩ := hx
      rw [node_totals, List.mem_map] at ht
      obtain ⟨np, hnp, rfl⟩ := ht
      rw [hnil np hnp]
      rfl
    simp only [record_node_usages]
    rw [if_pos ⟨h1, h2⟩]

theorem zero_delta_cycles_no_writes_witness :
    record_user_usages [(1, get_users_stats [⟨"1.tag", 0⟩])] [] (fun _ => none) false = []
    ∧ record_node_usages [(2, get_outbounds_stats [⟨"uplink", 0⟩])] false = [] := by
  have h := zero_delta_cycles_no_writes [] [] (fun _ => none) false []
    [(1, [⟨"1.tag", 0⟩])] [(2, [⟨"uplink", 0⟩])]
  exact ⟨h.2.2.1 (by decide), h.2.2.2 (by decide)⟩

/-- C7: within one user-usage settlement cycle the write operations are
sequenced user-totals first, then admin-totals, then per-node fact
persistence; when recording is disabled by configuration the fact phase is
skipped entirely and the trace is just the first two phases. -/
theorem record_user_usages_ordering (api_params : List (Int × List UidValue))
    (usage_coefficient : List (Int × ℚ)) (user_admin : Int → Option Int) :
    ∃ u a f : List WriteOp,
      u.all isUserTotals = true
      ∧ a.all isAdminTotals = true
      ∧ f.all isUserFacts = true
      ∧ record_user_usages api_params usage_coefficient user_admin false = u ++ a ++ f
      ∧ record_user_usages api_params usage_coefficient user_admin true = u ++ a := by
  by_cases hu : (calculate_users_usage api_params usage_coefficient).isEmpty
  · exact ⟨[], [], [], rfl, rfl, rfl,
      by simp [record_user_usages, hu], by simp [record_user_usages, hu]⟩
  · refine ⟨[WriteOp.userTotals (calculate_users_usage api_params usage_coefficient)],
      if (calculate_admin_usage (calculate_users_usage api_params usage_coefficient)
            user_admin).isEmpty
        then []
        else [WriteOp.adminTotals (calculate_admin_usage
          (calculate_users_usage api_params usage_coefficient) user_admin)],
      api_params.filterMap fun np =>
        record_user_stats np.2 np.1 (coeffLookup usage_coefficient np.1),
      rfl, ?_, ?_, ?_, ?_⟩
    · split <;> rfl
    · rw [List.all_eq_true]
      intro w hw
      rw [List.mem_filterMap] at hw
      obtain ⟨np, hnp, hw⟩ := hw
      unfold record_user_stats at hw
      by_cases he : np.2.isEmpty
      · rw [if_pos he] at hw; cases hw
      · rw [if_neg he] at hw
        cases hw
        rfl
    · simp [record_user_usages, hu]
    · simp [record_user_usages, hu]
